import Mathlib

/-!
Shallow embedding of the PSP22 token contract `RedToken` (src/lib.rs,
module `red`) and proofs about its operations.

Modelling conventions:
* `AccountId` (an opaque 32-byte address in ink!) is modelled as `Nat`;
  the distinguished all-zero address `AccountId::from([0u8; 32])` is `0`.
* `Balance` is `u128` in ink!.  We model it as `Nat`; the contract is
  built with overflow checks, so a `u128` addition that would exceed
  `2^128 - 1` panics, which aborts the whole message call and reverts all
  state.  Each operation therefore returns `Option (...)`, where `none`
  models such an aborted (panicked) call: no result value, no state, no
  events.  Subtractions in the source are guarded by earlier comparisons
  and never underflow.
* `ink::storage::Mapping` is a persistent key-value store; we model it as
  an association list, with `mapGet` for `Mapping::get` and `mapInsert`
  for `Mapping::insert` (insert overwrites the value stored at the key).
* The execution environment supplies the caller (`self.env().caller()`)
  and the contract-detection oracle (`self.env().is_contract`); both are
  passed as explicit parameters.
* `Vec<u8>` payloads (`data`) are `List Nat`.
-/

namespace Red

abbrev AccountId : Type := Nat

abbrev Balance : Type := Nat

/-- `AccountId::from([0u8; 32])`, the reserved null address. -/
def zeroAddress : AccountId := 0

/-- Exclusive upper bound of the `u128` balance type: an addition whose
result reaches this bound overflows and panics. -/
def u128Limit : Nat := 2 ^ 128

/-- `Mapping::get`: the value stored at key `k`, if any. -/
def mapGet {K V : Type} [DecidableEq K] : List (K × V) → K → Option V
  | [], _ => none
  | (k', v) :: rest, k => if k' = k then some v else mapGet rest k

/-- `Mapping::insert`: store `v` at key `k`, overwriting any previous
value held there. -/
def mapInsert {K V : Type} [DecidableEq K] (m : List (K × V)) (k : K) (v : V) :
    List (K × V) :=
  (k, v) :: m.filter (fun p => decide (p.1 ≠ k))

/-- The `PSP22Error` enum of src/lib.rs. -/
inductive PSP22Error : Type where
  | Custom (msg : String)
  | InsufficientBalance
  | InsufficientAllowance
  | ZeroRecipientAddress
  | ZeroSenderAddress
  | SafeTransferCheckFailed (msg : String)
  deriving DecidableEq, Repr

/-- `Result<(), PSP22Error>` of the source. -/
inductive TxResult : Type where
  | Ok
  | Err (e : PSP22Error)
  deriving DecidableEq, Repr

/-- The two ink! events of src/lib.rs.  `Transfer` carries optional
endpoints, exactly as the `Option<AccountId>` fields of the source. -/
inductive Event : Type where
  | Transfer («from» «to» : Option AccountId) (value : Balance) (data : List Nat)
  | Approval (owner spender : AccountId) (value : Balance) (data : List Nat)
  deriving DecidableEq, Repr

/-- The `#[ink(storage)]` struct `RedToken`. -/
structure RedToken : Type where
  admin : AccountId
  total_supply : Balance
  balances : List (AccountId × Balance)
  allowances : List ((AccountId × AccountId) × Balance)
  token_name : String
  token_symbol : String
  token_decimals : Nat
  deriving DecidableEq, Repr

/-- Outcome of one message call: `none` models a panic (the u128
arithmetic overflow trap), which reverts the call; otherwise the returned
`Result`, the post-state and the emitted events, in emission order. -/
abbrev TxOut : Type := Option (TxResult × RedToken × List Event)

/-- Constructor `RedToken::new`: note that `balances` and `allowances`
start empty — the initial supply is not credited to anyone. -/
def RedToken.new (init_supply : Balance) (admin : AccountId)
    (token_decimals : Nat) : RedToken where
  total_supply := init_supply
  admin := admin
  balances := []
  allowances := []
  token_name := "Real Estate DAO"
  token_symbol := "RED"
  token_decimals := token_decimals

/-- Message `balance_of`: stored balance of `owner`, or 0 if absent. -/
def balance_of (s : RedToken) (owner : AccountId) : Balance :=
  (mapGet s.balances owner).getD 0

/-- Message `allowance`: stored allowance of `(owner, spender)`, or 0. -/
def allowance (s : RedToken) (owner spender : AccountId) : Balance :=
  (mapGet s.allowances (owner, spender)).getD 0

/-- The message string built by `format!("AccountId {:?} is contract", &to)`
(the exact rendering of the address is abstracted by `toString`). -/
def safeTransferMsg («to» : AccountId) : String :=
  "AccountId " ++ toString «to» ++ " is contract"

/-- Message `transfer` of src/lib.rs.  `caller` is `self.env().caller()`
and `is_contract` is the environment's contract-detection oracle.  The
recipient's balance is read only after the checks, and the two inserts
happen in source order: sender first, recipient second. -/
def transfer (caller : AccountId) (is_contract : AccountId → Bool)
    (s : RedToken) («to» : AccountId) (value : Balance) (data : List Nat) :
    TxOut :=
  let sender := caller
  let sender_balance := balance_of s sender
  if sender_balance ≤ value then
    some (.Err .InsufficientBalance, s, [])
  else if sender = zeroAddress then
    some (.Err .ZeroSenderAddress, s, [])
  else if «to» = zeroAddress then
    some (.Err .ZeroRecipientAddress, s, [])
  else if is_contract «to» then
    some (.Err (.SafeTransferCheckFailed (safeTransferMsg «to»)), s, [])
  else
    let recipient_balance := balance_of s «to»
    if u128Limit ≤ recipient_balance + value then
      none
    else
      some (.Ok,
        { s with balances :=
            (mapInsert (mapInsert s.balances sender (sender_balance - value))
              «to» (recipient_balance + value)) },
        [Event.Transfer none (some «to») value data])

/-- Message `transfer_from` of src/lib.rs.  The local `allowance` read is
bound first; the checks run in the order of the source (allowance,
balance, zero sender, zero recipient); there is no contract-detection check and the stored
allowance is never written. -/
def transfer_from (caller : AccountId) (s : RedToken)
    («from» «to» : AccountId) (value : Balance) (data : List Nat) : TxOut :=
  let allowance := allowance s «from» caller
  if allowance < value then
    some (.Err .InsufficientBalance, s, [])
  else
    let from_balance := balance_of s «from»
    if from_balance < value then
      some (.Err .InsufficientBalance, s, [])
    else if «from» = zeroAddress then
      some (.Err .ZeroSenderAddress, s, [])
    else if «to» = zeroAddress then
      some (.Err .ZeroRecipientAddress, s, [])
    else
      let to_balance := balance_of s «to»
      if u128Limit ≤ to_balance + value then
        none
      else
        some (.Ok,
          { s with balances :=
              (mapInsert (mapInsert s.balances «from» (from_balance - value))
                «to» (to_balance + value)) },
          [Event.Transfer (some «from») none value data,
           Event.Approval «from» caller value data])

/-- Message `approve` of src/lib.rs. -/
def approve (caller : AccountId) (s : RedToken)
    (spender : AccountId) (value : Balance) : TxOut :=
  if caller = zeroAddress then
    some (.Err .ZeroSenderAddress, s, [])
  else if spender = zeroAddress then
    some (.Err .ZeroRecipientAddress, s, [])
  else
    some (.Ok,
      { s with allowances := mapInsert s.allowances (caller, spender) value },
      [Event.Approval caller spender value []])

/-- Message `increase_allowance` of src/lib.rs (the local variable is
spelled `current_allowence` in the source). -/
def increase_allowance (caller : AccountId) (s : RedToken)
    (spender : AccountId) (delta_value : Balance) : TxOut :=
  if caller = zeroAddress then
    some (.Err .ZeroSenderAddress, s, [])
  else if spender = zeroAddress then
    some (.Err .ZeroRecipientAddress, s, [])
  else
    let current_allowence := allowance s caller spender
    if u128Limit ≤ current_allowence + delta_value then
      none
    else
      some (.Ok,
        { s with allowances :=
            (mapInsert s.allowances (caller, spender)
              (current_allowence + delta_value)) },
        [Event.Approval caller spender delta_value []])

/-- Message `decrease_allowance` of src/lib.rs: the allowance check runs
before the zero-address checks. -/
def decrease_allowance (caller : AccountId) (s : RedToken)
    (spender : AccountId) (delta_value : Balance) : TxOut :=
  let current_allowence := allowance s caller spender
  if current_allowence < delta_value then
    some (.Err .InsufficientAllowance, s, [])
  else if caller = zeroAddress then
    some (.Err .ZeroSenderAddress, s, [])
  else if spender = zeroAddress then
    some (.Err .ZeroRecipientAddress, s, [])
  else
    some (.Ok,
      { s with allowances :=
          (mapInsert s.allowances (caller, spender)
            (current_allowence - delta_value)) },
      [Event.Approval caller spender delta_value []])

/-- Sum of all stored account balances of the ledger. -/
def sumOfBalances (s : RedToken) : Nat :=
  (s.balances.map Prod.snd).sum

/-! ### Map lemmas -/

theorem mapGet_mapInsert_self {K V : Type} [DecidableEq K]
    (m : List (K × V)) (k : K) (v : V) :
    mapGet (mapInsert m k v) k = some v := by
  simp [mapGet, mapInsert]

/-! ### Insufficient-balance check of `transfer` -/

/-- C3: `transfer(to, value, data)` demands the caller's balance be
strictly greater than `value`, and this check runs first: whenever
`value ≥ balance_of(caller)` (the exact-balance case included), the call
returns `InsufficientBalance` with the ledger untouched and no events,
for every recipient and caller, the null account included. -/
theorem transfer_rejects_value_ge_balance (caller : AccountId)
    (is_contract : AccountId → Bool) (s : RedToken) («to» : AccountId)
    (value : Balance) (data : List Nat)
    (h : balance_of s caller ≤ value) :
    transfer caller is_contract s «to» value data =
      some (.Err .InsufficientBalance, s, []) := by
  simp [transfer, h]

def s_c3 : RedToken := { RedToken.new 1000 9 5 with balances := [(1, 50)] }

/-- Witness for C3: a caller holding exactly 50 tokens cannot transfer
50 of them. -/
theorem transfer_rejects_value_ge_balance_witness :
    balance_of s_c3 1 ≤ 50 ∧
      transfer 1 (fun _ => false) s_c3 2 50 [] =
        some (.Err .InsufficientBalance, s_c3, []) :=
  ⟨by decide,
    transfer_rejects_value_ge_balance 1 (fun _ => false) s_c3 2 50 []
      (by decide)⟩

/-! ### Allowance check of `transfer_from` -/

/-- C5: `transfer_from(from, to, amount, data)` returns
`InsufficientBalance` (not `InsufficientAllowance`) whenever
`allowance(from, caller) < amount`; the check runs before the balance and
zero-address checks, so this holds for every state and every pair of
endpoints, the null account included. -/
theorem transfer_from_allowance_shortfall (caller : AccountId)
    (s : RedToken) («from» «to» : AccountId) (value : Balance)
    (data : List Nat) (h : allowance s «from» caller < value) :
    transfer_from caller s «from» «to» value data =
      some (.Err .InsufficientBalance, s, []) := by
  simp [transfer_from, h]

/-- Witness for C5: with no allowance set, a null `from` and a null `to`
and an empty balance, the error is still `InsufficientBalance`. -/
theorem transfer_from_allowance_shortfall_witness :
    allowance (RedToken.new 1000 9 5) 0 7 < 3 ∧
      transfer_from 7 (RedToken.new 1000 9 5) 0 0 3 [] =
        some (.Err .InsufficientBalance, RedToken.new 1000 9 5, []) :=
  ⟨by decide,
    transfer_from_allowance_shortfall 7 (RedToken.new 1000 9 5) 0 0 3 []
      (by decide)⟩

/-! ### `transfer_from` never writes the allowance -/

/-- C2: a successful `transfer_from` leaves the whole allowances map —
and in particular the consumed `allowance(from, caller)` — exactly as it
was: only balances are written. -/
theorem transfer_from_leaves_allowance_unchanged (caller : AccountId)
    (s : RedToken) («from» «to» : AccountId) (value : Balance)
    (data : List Nat) (s' : RedToken) (evs : List Event)
    (h : transfer_from caller s «from» «to» value data =
      some (.Ok, s', evs)) :
    s'.allowances = s.allowances ∧
      allowance s' «from» caller = allowance s «from» caller := by
  simp only [transfer_from] at h
  repeat' split at h
  all_goals try simp_all [allowance]
  obtain ⟨rfl, rfl⟩ := h
  exact ⟨rfl, rfl⟩

def s_c2a : RedToken := { RedToken.new 1000 9 5 with balances := [(1, 100)] }

def s_c2b : RedToken := { s_c2a with allowances := [((1, 3), 50)] }

def s_c2c : RedToken := { s_c2b with balances := [(4, 30), (1, 70)] }

/-- Witness for C2, the spec scenario: account 1 approves spender 3 for
50; 3 moves 30 from 1 to 4; balances move but `allowance(1, 3)` is still
50. -/
theorem transfer_from_leaves_allowance_unchanged_witness :
    approve 1 s_c2a 3 50 = some (.Ok, s_c2b, [Event.Approval 1 3 50 []]) ∧
      allowance s_c2c 1 3 = allowance s_c2b 1 3 ∧
      allowance s_c2b 1 3 = 50 ∧
      balance_of s_c2c 4 = 30 ∧ balance_of s_c2c 1 = 70 :=
  ⟨rfl,
    (transfer_from_leaves_allowance_unchanged 3 s_c2b 1 4 30 [] s_c2c
      [Event.Transfer (some 1) none 30 [], Event.Approval 1 3 30 []]
      rfl).2,
    rfl, rfl, rfl⟩

/-! ### Error outcomes mutate nothing -/

theorem transfer_err_frame (caller : AccountId)
    (is_contract : AccountId → Bool) (s : RedToken) («to» : AccountId)
    (value : Balance) (data : List Nat) (e : PSP22Error) (s' : RedToken)
    (evs : List Event)
    (h : transfer caller is_contract s «to» value data =
      some (.Err e, s', evs)) :
    s' = s ∧ evs = [] := by
  simp only [transfer] at h
  repeat' split at h
  all_goals simp_all

theorem transfer_from_err_frame (caller : AccountId) (s : RedToken)
    («from» «to» : AccountId) (value : Balance) (data : List Nat)
    (e : PSP22Error) (s' : RedToken) (evs : List Event)
    (h : transfer_from caller s «from» «to» value data =
      some (.Err e, s', evs)) :
    s' = s ∧ evs = [] := by
  simp only [transfer_from] at h
  repeat' split at h
  all_goals simp_all

theorem approve_err_frame (caller : AccountId) (s : RedToken)
    (spender : AccountId) (value : Balance) (e : PSP22Error)
    (s' : RedToken) (evs : List Event)
    (h : approve caller s spender value = some (.Err e, s', evs)) :
    s' = s ∧ evs = [] := by
  simp only [approve] at h
  repeat' split at h
  all_goals simp_all

theorem increase_allowance_err_frame (caller : AccountId) (s : RedToken)
    (spender : AccountId) (delta_value : Balance) (e : PSP22Error)
    (s' : RedToken) (evs : List Event)
    (h : increase_allowance caller s spender delta_value =
      some (.Err e, s', evs)) :
    s' = s ∧ evs = [] := by
  simp only [increase_allowance] at h
  repeat' split at h
  all_goals simp_all

theorem decrease_allowance_err_frame (caller : AccountId) (s : RedToken)
    (spender : AccountId) (delta_value : Balance) (e : PSP22Error)
    (s' : RedToken) (evs : List Event)
    (h : decrease_allowance caller s spender delta_value =
      some (.Err e, s', evs)) :
    s' = s ∧ evs = [] := by
  simp only [decrease_allowance] at h
  repeat' split at h
  all_goals simp_all

/-- C6: every mutating operation is all-or-nothing — whenever it returns
an error value, the post-state equals the pre-state (no balance or
allowance written) and no event has been emitted. -/
theorem mutating_ops_all_or_nothing :
    (∀ caller is_contract s «to» value data e s' evs,
        transfer caller is_contract s «to» value data =
          some (.Err e, s', evs) → s' = s ∧ evs = []) ∧
      (∀ caller s «from» «to» value data e s' evs,
        transfer_from caller s «from» «to» value data =
          some (.Err e, s', evs) → s' = s ∧ evs = []) ∧
      (∀ caller s spender value e s' evs,
        approve caller s spender value = some (.Err e, s', evs) →
          s' = s ∧ evs = []) ∧
      (∀ caller s spender delta_value e s' evs,
        increase_allowance caller s spender delta_value =
          some (.Err e, s', evs) → s' = s ∧ evs = []) ∧
      (∀ caller s spender delta_value e s' evs,
        decrease_allowance caller s spender delta_value =
          some (.Err e, s', evs) → s' = s ∧ evs = []) :=
  ⟨fun c ic s t v d e s' evs h => transfer_err_frame c ic s t v d e s' evs h,
    fun c s f t v d e s' evs h => transfer_from_err_frame c s f t v d e s' evs h,
    fun c s sp v e s' evs h => approve_err_frame c s sp v e s' evs h,
    fun c s sp d e s' evs h => increase_allowance_err_frame c s sp d e s' evs h,
    fun c s sp d e s' evs h => decrease_allowance_err_frame c s sp d e s' evs h⟩

/-- Witness for C6: a failing `decrease_allowance` (allowance 0 < 4)
leaves the freshly constructed ledger exactly as it was. -/
theorem mutating_ops_all_or_nothing_witness :
    (RedToken.new 321 9 5) = RedToken.new 321 9 5 ∧ ([] : List Event) = [] :=
  mutating_ops_all_or_nothing.2.2.2.2 6 (RedToken.new 321 9 5) 8 4
    .InsufficientAllowance (RedToken.new 321 9 5) [] rfl

/-! ### Total supply is never written -/

theorem transfer_total_supply (caller : AccountId)
    (is_contract : AccountId → Bool) (s : RedToken) («to» : AccountId)
    (value : Balance) (data : List Nat) (r : TxResult) (s' : RedToken)
    (evs : List Event)
    (h : transfer caller is_contract s «to» value data = some (r, s', evs)) :
    s'.total_supply = s.total_supply := by
  simp only [transfer] at h
  repeat' split at h
  all_goals try simp_all
  obtain ⟨-, rfl, -⟩ := h
  rfl

theorem transfer_from_total_supply (caller : AccountId) (s : RedToken)
    («from» «to» : AccountId) (value : Balance) (data : List Nat)
    (r : TxResult) (s' : RedToken) (evs : List Event)
    (h : transfer_from caller s «from» «to» value data = some (r, s', evs)) :
    s'.total_supply = s.total_supply := by
  simp only [transfer_from] at h
  repeat' split at h
  all_goals try simp_all
  obtain ⟨-, rfl, -⟩ := h
  rfl

theorem approve_total_supply (caller : AccountId) (s : RedToken)
    (spender : AccountId) (value : Balance) (r : TxResult) (s' : RedToken)
    (evs : List Event)
    (h : approve caller s spender value = some (r, s', evs)) :
    s'.total_supply = s.total_supply := by
  simp only [approve] at h
  repeat' split at h
  all_goals try simp_all
  obtain ⟨-, rfl, -⟩ := h
  rfl

theorem increase_allowance_total_supply (caller : AccountId) (s : RedToken)
    (spender : AccountId) (delta_value : Balance) (r : TxResult)
    (s' : RedToken) (evs : List Event)
    (h : increase_allowance caller s spender delta_value = some (r, s', evs)) :
    s'.total_supply = s.total_supply := by
  simp only [increase_allowance] at h
  repeat' split at h
  all_goals try simp_all
  obtain ⟨-, rfl, -⟩ := h
  rfl

theorem decrease_allowance_total_supply (caller : AccountId) (s : RedToken)
    (spender : AccountId) (delta_value : Balance) (r : TxResult)
    (s' : RedToken) (evs : List Event)
    (h : decrease_allowance caller s spender delta_value = some (r, s', evs)) :
    s'.total_supply = s.total_supply := by
  simp only [decrease_allowance] at h
  repeat' split at h
  all_goals try simp_all
  obtain ⟨-, rfl, -⟩ := h
  rfl

/-- C8: after `new(init_supply, admin, decimals)` the total supply reads
back as `init_supply` while every balance and every allowance (the
administrator's included) reads 0, and no operation — whatever its
outcome — ever changes the stored total supply. -/
theorem construction_and_total_supply_invariant :
    (∀ i a d, (RedToken.new i a d).total_supply = i) ∧
      (∀ i a d x, balance_of (RedToken.new i a d) x = 0) ∧
      (∀ i a d o sp, allowance (RedToken.new i a d) o sp = 0) ∧
      (∀ caller is_contract s «to» value data r s' evs,
        transfer caller is_contract s «to» value data = some (r, s', evs) →
          s'.total_supply = s.total_supply) ∧
      (∀ caller s «from» «to» value data r s' evs,
        transfer_from caller s «from» «to» value data = some (r, s', evs) →
          s'.total_supply = s.total_supply) ∧
      (∀ caller s spender value r s' evs,
        approve caller s spender value = some (r, s', evs) →
          s'.total_supply = s.total_supply) ∧
      (∀ caller s spender delta_value r s' evs,
        increase_allowance caller s spender delta_value = some (r, s', evs) →
          s'.total_supply = s.total_supply) ∧
      (∀ caller s spender delta_value r s' evs,
        decrease_allowance caller s spender delta_value = some (r, s', evs) →
          s'.total_supply = s.total_supply) :=
  ⟨fun _ _ _ => rfl, fun _ _ _ _ => rfl, fun _ _ _ _ _ => rfl,
    fun c ic s t v d r s' evs h => transfer_total_supply c ic s t v d r s' evs h,
    fun c s f t v d r s' evs h => transfer_from_total_supply c s f t v d r s' evs h,
    fun c s sp v r s' evs h => approve_total_supply c s sp v r s' evs h,
    fun c s sp d r s' evs h => increase_allowance_total_supply c s sp d r s' evs h,
    fun c s sp d r s' evs h => decrease_allowance_total_supply c s sp d r s' evs h⟩

def s_c8 : RedToken := { RedToken.new 777 9 5 with balances := [(1, 20)] }

def s_c8x : RedToken := { s_c8 with balances := [(2, 5), (1, 15)] }

/-- Witness for C8: on a fresh ledger every read is as constructed, and a
concrete successful transfer keeps the total supply at 777. -/
theorem construction_and_total_supply_invariant_witness :
    (RedToken.new 777 9 5).total_supply = 777 ∧
      balance_of (RedToken.new 777 9 5) 9 = 0 ∧
      allowance (RedToken.new 777 9 5) 9 2 = 0 ∧
      s_c8x.total_supply = s_c8.total_supply :=
  ⟨construction_and_total_supply_invariant.1 777 9 5,
    construction_and_total_supply_invariant.2.1 777 9 5 9,
    construction_and_total_supply_invariant.2.2.1 777 9 5 9 2,
    construction_and_total_supply_invariant.2.2.2.1 1 (fun _ => false) s_c8 2
      5 [] .Ok s_c8x [Event.Transfer none (some 2) 5 []] rfl⟩

/-! ### Allowance round-trip -/

/-- C9: whenever `increase_allowance(spender, d)` and then
`decrease_allowance(spender, d)` both succeed, the stored
`allowance(caller, spender)` is exactly what it was before the pair. -/
theorem increase_then_decrease_restores_allowance (caller : AccountId)
    (s : RedToken) (spender : AccountId) (d : Balance) (s1 s2 : RedToken)
    (ev1 ev2 : List Event)
    (h1 : increase_allowance caller s spender d = some (.Ok, s1, ev1))
    (h2 : decrease_allowance caller s1 spender d = some (.Ok, s2, ev2)) :
    allowance s2 caller spender = allowance s caller spender := by
  simp only [increase_allowance] at h1
  repeat' split at h1
  all_goals try simp_all
  obtain ⟨rfl, rfl⟩ := h1
  simp only [decrease_allowance, allowance, mapGet_mapInsert_self,
    Option.getD_some] at h2
  repeat' split at h2
  all_goals try simp_all
  obtain ⟨rfl, rfl⟩ := h2
  simp [allowance, mapGet_mapInsert_self]

def s_c9 : RedToken := RedToken.new 555 9 5

def s_c9a : RedToken := { s_c9 with allowances := [((1, 2), 7)] }

def s_c9b : RedToken := { s_c9 with allowances := [((1, 2), 0)] }

/-- Witness for C9: increasing a fresh allowance by 7 and decreasing it
by 7 brings `allowance(1, 2)` back to its original value 0. -/
theorem increase_then_decrease_restores_allowance_witness :
    allowance s_c9b 1 2 = allowance s_c9 1 2 :=
  increase_then_decrease_restores_allowance 1 s_c9 2 7 s_c9a s_c9b
    [Event.Approval 1 2 7 []] [Event.Approval 1 2 7 []] rfl rfl

/-! ### Self-transfer overwrites the debit -/

theorem transfer_self_credit (caller : AccountId)
    (is_contract : AccountId → Bool) (s : RedToken) (value : Balance)
    (data : List Nat) (s' : RedToken) (evs : List Event)
    (h : transfer caller is_contract s caller value data =
      some (.Ok, s', evs)) :
    balance_of s' caller = balance_of s caller + value := by
  simp only [transfer] at h
  repeat' split at h
  all_goals try simp_all
  obtain ⟨rfl, rfl⟩ := h
  simp [balance_of, mapGet_mapInsert_self]

theorem transfer_from_self_credit (caller : AccountId) (s : RedToken)
    («from» : AccountId) (value : Balance) (data : List Nat)
    (s' : RedToken) (evs : List Event)
    (h : transfer_from caller s «from» «from» value data =
      some (.Ok, s', evs)) :
    balance_of s' «from» = balance_of s «from» + value := by
  simp only [transfer_from] at h
  repeat' split at h
  all_goals try simp_all
  obtain ⟨rfl, rfl⟩ := h
  simp [balance_of, mapGet_mapInsert_self]

/-- C10: because the recipient balance is read before the sender's debit
is written, a successful self-`transfer` of `value` leaves the account
with its old balance plus `value`, and a successful `transfer_from` with
`from = to` does the same: the credit insert overwrites the debit. -/
theorem self_transfer_credit_overwrites_debit :
    (∀ caller is_contract s value data s' evs,
        transfer caller is_contract s caller value data =
          some (.Ok, s', evs) →
          balance_of s' caller = balance_of s caller + value) ∧
      (∀ caller s «from» value data s' evs,
        transfer_from caller s «from» «from» value data =
          some (.Ok, s', evs) →
          balance_of s' «from» = balance_of s «from» + value) :=
  ⟨fun c ic s v d s' evs h => transfer_self_credit c ic s v d s' evs h,
    fun c s f v d s' evs h => transfer_from_self_credit c s f v d s' evs h⟩

def s_c10 : RedToken := { RedToken.new 888 9 5 with balances := [(2, 40)] }

def s_c10x : RedToken := { s_c10 with balances := [(2, 50)] }

/-- Witness for C10: account 2, holding 40, transfers 10 to itself and
ends up holding 50. -/
theorem self_transfer_credit_overwrites_debit_witness :
    balance_of s_c10x 2 = balance_of s_c10 2 + 10 :=
  self_transfer_credit_overwrites_debit.1 2 (fun _ => false) s_c10 10 []
    s_c10x [Event.Transfer none (some 2) 10 []] rfl

/-! ### Null-endpoint behaviour -/

theorem transfer_null_endpoint (caller : AccountId)
    (is_contract : AccountId → Bool) (s : RedToken) («to» : AccountId)
    (value : Balance) (data : List Nat)
    (h : caller = zeroAddress ∨ «to» = zeroAddress) :
    transfer caller is_contract s «to» value data =
      some (.Err
        (if balance_of s caller ≤ value then .InsufficientBalance
          else if caller = zeroAddress then .ZeroSenderAddress
          else .ZeroRecipientAddress), s, []) := by
  simp only [transfer]
  split_ifs with h1 h2 h3 <;> first | rfl | tauto

theorem transfer_from_null_endpoint (caller : AccountId) (s : RedToken)
    («from» «to» : AccountId) (value : Balance) (data : List Nat)
    (h : «from» = zeroAddress ∨ «to» = zeroAddress) :
    transfer_from caller s «from» «to» value data =
      some (.Err
        (if allowance s «from» caller < value then .InsufficientBalance
          else if balance_of s «from» < value then .InsufficientBalance
          else if «from» = zeroAddress then .ZeroSenderAddress
          else .ZeroRecipientAddress), s, []) := by
  simp only [transfer_from]
  split_ifs with h1 h2 h3 h4 <;> first | rfl | tauto

theorem approve_null_endpoint (caller : AccountId) (s : RedToken)
    (spender : AccountId) (value : Balance)
    (h : caller = zeroAddress ∨ spender = zeroAddress) :
    approve caller s spender value =
      some (.Err
        (if caller = zeroAddress then .ZeroSenderAddress
          else .ZeroRecipientAddress), s, []) := by
  simp only [approve]
  split_ifs with h1 h2 <;> first | rfl | tauto

theorem increase_allowance_null_endpoint (caller : AccountId)
    (s : RedToken) (spender : AccountId) (delta_value : Balance)
    (h : caller = zeroAddress ∨ spender = zeroAddress) :
    increase_allowance caller s spender delta_value =
      some (.Err
        (if caller = zeroAddress then .ZeroSenderAddress
          else .ZeroRecipientAddress), s, []) := by
  simp only [increase_allowance]
  split_ifs with h1 h2 <;> first | rfl | tauto

theorem decrease_allowance_null_endpoint (caller : AccountId)
    (s : RedToken) (spender : AccountId) (delta_value : Balance)
    (h : caller = zeroAddress ∨ spender = zeroAddress) :
    decrease_allowance caller s spender delta_value =
      some (.Err
        (if allowance s caller spender < delta_value then
            .InsufficientAllowance
          else if caller = zeroAddress then .ZeroSenderAddress
          else .ZeroRecipientAddress), s, []) := by
  simp only [decrease_allowance]
  split_ifs with h1 h2 h3 <;> first | rfl | tauto

/-- Counterexample to C4 as stated: the null account calling
`transfer(1, 0, [])` on a fresh ledger holds balance 0 ≤ 0, so the call
fails with `InsufficientBalance`, not with `ZeroSenderAddress` — the
error is not irrespective of the null account's balance. -/
theorem null_sender_error_counterexample :
    transfer zeroAddress (fun _ => false) (RedToken.new 1000 9 5) 1 0 [] =
      some (.Err .InsufficientBalance, RedToken.new 1000 9 5, []) ∧
      PSP22Error.InsufficientBalance ≠ PSP22Error.ZeroSenderAddress :=
  ⟨rfl, by decide⟩

/-- C4 (amended): any operation whose sender or recipient endpoint is the
null account fails, with the pre-state returned untouched and no events;
the error is the corresponding `ZeroSenderAddress`/`ZeroRecipientAddress`
whenever the operation's earlier funds/allowance checks pass, and the
earlier check's `InsufficientBalance`/`InsufficientAllowance` otherwise. -/
theorem null_endpoint_rejection :
    (∀ caller is_contract s «to» value data,
        caller = zeroAddress ∨ «to» = zeroAddress →
        transfer caller is_contract s «to» value data =
          some (.Err
            (if balance_of s caller ≤ value then .InsufficientBalance
              else if caller = zeroAddress then .ZeroSenderAddress
              else .ZeroRecipientAddress), s, [])) ∧
      (∀ caller s «from» «to» value data,
        «from» = zeroAddress ∨ «to» = zeroAddress →
        transfer_from caller s «from» «to» value data =
          some (.Err
            (if allowance s «from» caller < value then .InsufficientBalance
              else if balance_of s «from» < value then .InsufficientBalance
              else if «from» = zeroAddress then .ZeroSenderAddress
              else .ZeroRecipientAddress), s, [])) ∧
      (∀ caller s spender value,
        caller = zeroAddress ∨ spender = zeroAddress →
        approve caller s spender value =
          some (.Err
            (if caller = zeroAddress then .ZeroSenderAddress
              else .ZeroRecipientAddress), s, [])) ∧
      (∀ caller s spender delta_value,
        caller = zeroAddress ∨ spender = zeroAddress →
        increase_allowance caller s spender delta_value =
          some (.Err
            (if caller = zeroAddress then .ZeroSenderAddress
              else .ZeroRecipientAddress), s, [])) ∧
      (∀ caller s spender delta_value,
        caller = zeroAddress ∨ spender = zeroAddress →
        decrease_allowance caller s spender delta_value =
          some (.Err
            (if allowance s caller spender < delta_value then
                .InsufficientAllowance
              else if caller = zeroAddress then .ZeroSenderAddress
              else .ZeroRecipientAddress), s, [])) :=
  ⟨fun c ic s t v d h => transfer_null_endpoint c ic s t v d h,
    fun c s f t v d h => transfer_from_null_endpoint c s f t v d h,
    fun c s sp v h => approve_null_endpoint c s sp v h,
    fun c s sp d h => increase_allowance_null_endpoint c s sp d h,
    fun c s sp d h => decrease_allowance_null_endpoint c s sp d h⟩

def s_c4 : RedToken := { RedToken.new 1000 9 5 with balances := [(0, 10)] }

/-- Witness for C4 (amended): when the null account somehow holds enough
balance for the first check to pass, `transfer` does fail with
`ZeroSenderAddress`; `approve` to a null spender fails with
`ZeroRecipientAddress`. -/
theorem null_endpoint_rejection_witness :
    transfer 0 (fun _ => false) s_c4 1 3 [] =
      some (.Err .ZeroSenderAddress, s_c4, []) ∧
      approve 1 s_c4 0 5 = some (.Err .ZeroRecipientAddress, s_c4, []) :=
  ⟨by
    have h := null_endpoint_rejection.1 0 (fun _ => false) s_c4 1 3 []
      (Or.inl rfl)
    simpa using h,
    by
    have h := null_endpoint_rejection.2.2.1 1 s_c4 0 5 (Or.inr rfl)
    simpa using h⟩

/-! ### Conservation fails on self-transfer -/

def s_c1 : RedToken := { RedToken.new 1000 9 5 with balances := [(1, 10)] }

def s_c1x : RedToken := { RedToken.new 1000 9 5 with balances := [(1, 15)] }

/-- C1 fails on the code: account 1, holding 10, successfully transfers
5 to itself, and the sum of all stored balances grows from 10 to 15 —
the credit is computed from the balance read before the debit was
written, so the debit is overwritten and balance is created. -/
theorem self_transfer_breaks_conservation :
    transfer 1 (fun _ => false) s_c1 1 5 [] =
      some (.Ok, s_c1x, [Event.Transfer none (some 1) 5 []]) ∧
      sumOfBalances s_c1 = 10 ∧ sumOfBalances s_c1x = 15 :=
  ⟨rfl, rfl, rfl⟩

/-! ### Emitted event endpoints -/

def s_c7 : RedToken :=
  { RedToken.new 1000 9 5 with
      balances := [(1, 100)], allowances := [((1, 3), 50)] }

/-- C7 fails on the code: a successful `transfer` by account 1 emits
`Transfer` with `from = None` (not the caller), and a successful
`transfer_from` moving funds from 1 to 4 emits `Transfer` with
`to = None` (not the recipient); only the `Approval` event carries
`owner = from` and `spender = caller` as described. -/
theorem transfer_event_endpoints_dropped :
    transfer 1 (fun _ => false) s_c7 2 30 [] =
      some (.Ok, { s_c7 with balances := [(2, 30), (1, 70)] },
        [Event.Transfer none (some 2) 30 []]) ∧
      transfer_from 3 s_c7 1 4 30 [] =
        some (.Ok, { s_c7 with balances := [(4, 30), (1, 70)] },
          [Event.Transfer (some 1) none 30 [], Event.Approval 1 3 30 []]) ∧
      (none : Option AccountId) ≠ some 1 ∧
      (none : Option AccountId) ≠ some 4 :=
  ⟨rfl, rfl, by decide, by decide⟩

/-! ### Conservation holds between distinct accounts

Supporting lemmas: on a well-formed store (no duplicate keys, which is
what a key-value `Mapping` guarantees), a successful `transfer` or
`transfer_from` between two distinct accounts keeps the sum of all
stored balances constant.  Together with `self_transfer_breaks_conservation`
this pins the exact boundary of the conservation property. -/

theorem mapGet_eq_none_of_not_mem {K V : Type} [DecidableEq K]
    (m : List (K × V)) (k : K) (h : k ∉ m.map Prod.fst) :
    mapGet m k = none := by
  induction m with
  | nil => rfl
  | cons p rest ih =>
    obtain ⟨pk, pv⟩ := p
    simp only [List.map_cons, List.mem_cons] at h
    push_neg at h
    simp only [mapGet]
    rw [if_neg (fun hk => h.1 hk.symm)]
    exact ih h.2

theorem filter_ne_eq_self_of_not_mem {K V : Type} [DecidableEq K]
    (m : List (K × V)) (k : K) (h : k ∉ m.map Prod.fst) :
    m.filter (fun p => decide (p.1 ≠ k)) = m := by
  induction m with
  | nil => rfl
  | cons p rest ih =>
    obtain ⟨pk, pv⟩ := p
    simp only [List.map_cons, List.mem_cons] at h
    push_neg at h
    simp only [List.filter_cons]
    rw [if_pos (by simpa using fun hk => h.1 hk.symm)]
    rw [ih h.2]

theorem mapGet_filter_ne {K V : Type} [DecidableEq K]
    (m : List (K × V)) (k k' : K) (h : k' ≠ k) :
    mapGet (m.filter fun p => decide (p.1 ≠ k)) k' = mapGet m k' := by
  induction m with
  | nil => rfl
  | cons p rest ih =>
    obtain ⟨pk, pv⟩ := p
    rw [List.filter_cons]
    by_cases hk : pk = k
    · rw [if_neg (by simp [hk])]
      rw [ih]
      simp only [mapGet]
      rw [if_neg (fun hh => h (by rw [← hh]; exact hk))]
    · rw [if_pos (by simp [hk])]
      simp only [mapGet, ih]

/-- Sum of the values stored in an association list. -/
def sumVals {K : Type} (m : List (K × Balance)) : Nat :=
  (m.map Prod.snd).sum

theorem sumVals_mapInsert {K : Type} [DecidableEq K]
    (m : List (K × Balance)) (k : K) (v : Balance) :
    sumVals (mapInsert m k v) =
      v + sumVals (m.filter fun p => decide (p.1 ≠ k)) := rfl

theorem sumVals_cons {K : Type} (p : K × Balance) (m : List (K × Balance)) :
    sumVals (p :: m) = p.2 + sumVals m := rfl

theorem filter_mapInsert_ne {K V : Type} [DecidableEq K]
    (m : List (K × V)) (k k' : K) (v : V) (h : k ≠ k') :
    (mapInsert m k v).filter (fun p => decide (p.1 ≠ k')) =
      (k, v) ::
        ((m.filter fun p => decide (p.1 ≠ k)).filter
          fun p => decide (p.1 ≠ k')) := by
  simp [mapInsert, List.filter_cons, h]

theorem sumVals_decompose {K : Type} [DecidableEq K]
    (m : List (K × Balance)) (k : K) (hwf : (m.map Prod.fst).Nodup) :
    sumVals m =
      (mapGet m k).getD 0 +
        sumVals (m.filter fun p => decide (p.1 ≠ k)) := by
  induction m with
  | nil => rfl
  | cons p rest ih =>
    obtain ⟨pk, pv⟩ := p
    simp only [List.map_cons, List.nodup_cons] at hwf
    by_cases hk : pk = k
    · subst hk
      rw [show mapGet ((pk, pv) :: rest) pk = some pv from by simp [mapGet]]
      rw [show ((pk, pv) :: rest).filter (fun p => decide (p.1 ≠ pk)) =
          rest.filter (fun p => decide (p.1 ≠ pk)) from by
        simp [List.filter_cons]]
      rw [filter_ne_eq_self_of_not_mem rest pk hwf.1]
      simp [sumVals]
    · simp only [mapGet, List.filter_cons]
      rw [if_neg hk, if_pos (by simpa using hk)]
      have := ih hwf.2
      simp only [sumVals, List.map_cons, List.sum_cons] at *
      omega

theorem nodup_keys_filter {K V : Type} [DecidableEq K]
    (m : List (K × V)) (k : K) (hwf : (m.map Prod.fst).Nodup) :
    ((m.filter fun p => decide (p.1 ≠ k)).map Prod.fst).Nodup :=
  ((List.filter_sublist m).map Prod.fst).nodup hwf

theorem transfer_between_distinct_conserves_sum (caller : AccountId)
    (is_contract : AccountId → Bool) (s : RedToken) («to» : AccountId)
    (value : Balance) (data : List Nat) (s' : RedToken) (evs : List Event)
    (hwf : (s.balances.map Prod.fst).Nodup) (hne : caller ≠ «to»)
    (h : transfer caller is_contract s «to» value data =
      some (.Ok, s', evs)) :
    sumOfBalances s' = sumOfBalances s := by
  simp only [transfer] at h
  repeat' split at h
  all_goals try simp_all
  obtain ⟨rfl, rfl⟩ := h
  rename_i hlt _ _ _ _
  have hv : value ≤ balance_of s caller := le_of_lt hlt
  show sumVals (mapInsert (mapInsert s.balances caller
      (balance_of s caller - value)) «to» (balance_of s «to» + value)) =
    sumVals s.balances
  rw [sumVals_mapInsert, filter_mapInsert_ne s.balances caller «to»
    (balance_of s caller - value) hne, sumVals_cons]
  rw [sumVals_decompose s.balances caller hwf,
    sumVals_decompose (s.balances.filter fun p => decide (p.1 ≠ caller))
      «to» (nodup_keys_filter s.balances caller hwf)]
  rw [mapGet_filter_ne s.balances caller «to» (Ne.symm hne)]
  simp only [Prod.snd]
  unfold balance_of at *
  have hvN : @LE.le Nat instLENat value
      ((mapGet s.balances caller).getD 0) := hv
  omega

theorem transfer_from_between_distinct_conserves_sum (caller : AccountId)
    (s : RedToken) («from» «to» : AccountId) (value : Balance)
    (data : List Nat) (s' : RedToken) (evs : List Event)
    (hwf : (s.balances.map Prod.fst).Nodup) (hne : «from» ≠ «to»)
    (h : transfer_from caller s «from» «to» value data =
      some (.Ok, s', evs)) :
    sumOfBalances s' = sumOfBalances s := by
  simp only [transfer_from] at h
  repeat' split at h
  all_goals try simp_all
  obtain ⟨rfl, rfl⟩ := h
  rename_i hal hlt _ _ _
  have hv : value ≤ balance_of s «from» := hlt
  show sumVals (mapInsert (mapInsert s.balances «from»
      (balance_of s «from» - value)) «to» (balance_of s «to» + value)) =
    sumVals s.balances
  rw [sumVals_mapInsert, filter_mapInsert_ne s.balances «from» «to»
    (balance_of s «from» - value) hne, sumVals_cons]
  rw [sumVals_decompose s.balances «from» hwf,
    sumVals_decompose (s.balances.filter fun p => decide (p.1 ≠ «from»))
      «to» (nodup_keys_filter s.balances «from» hwf)]
  rw [mapGet_filter_ne s.balances «from» «to» (Ne.symm hne)]
  simp only [Prod.snd]
  unfold balance_of at *
  have hvN : @LE.le Nat instLENat value
      ((mapGet s.balances «from»).getD 0) := hv
  omega

end Red
